import Mathlib

/-!
Verification of the osm/irc client library (files core.go and conn.go).

Go strings are byte strings; the library only manipulates them at byte
granularity (len, slicing, concatenation, splitting on a single space), so
they are embedded as `List Char` (ASCII).  The socket is embedded as a
`Transport` recording the raw strings written so far together with an
oracle list giving the error returned by each successive write.  Logging
(`c.log`) is a debug-only side effect with no protocol impact and is not
recorded.
-/

namespace IrcSpec

/-- Modelled from the spec: the protocol line terminator CR-LF.  The
constant eol is declared in a file of the repository that is not part of
the provided sources; the spec fixes outbound lines to be CR-LF
terminated. -/
def eol : List Char := ['\r', '\n']

/-- Coercion from Lean string literals to the byte-string model. -/
def str (s : String) : List Char := s.toList

/-- The transport (net.Conn in the source): the lines written so far and,
as the environment's behaviour, the error returned by each successive
Write call (an empty oracle means every write succeeds). -/
structure Transport where
  written : List (List Char)
  errs : List (Option String)
deriving DecidableEq

/-- One Write call on the transport: records the written string and
consumes the head of the error oracle as the call's result. -/
def transportWrite (tr : Transport) (s : List Char) : Transport × Option String :=
  (⟨tr.written ++ [s], tr.errs.tail⟩, tr.errs.headD none)

/-- The protocol-relevant fields of the Client struct (the struct itself
is declared in a file outside the provided sources; the fields below are
exactly the ones core.go and conn.go read and write, with the debug
logger, the event hub handle, the quit channel and the identity mutex
modelled away as described in the file header). -/
structure Client where
  conn : Option Transport
  addr : List Char
  nick : List Char
  currentNick : List Char
  user : List Char
  realName : List Char
deriving DecidableEq

/-- The framing performed by Sendf (core.go lines 23-29) on the formatted
string s = fmt.Sprintf(format, args...): append eol, and if the result
exceeds 510 bytes truncate it to its first 510 bytes and append eol
again. -/
def sframe (s : List Char) : List Char :=
  let t := s ++ eol
  if 510 < t.length then t.take 510 ++ eol else t

/-- Sendf (core.go lines 16-37): a silent no-op when no transport is
open; otherwise writes the framed string and returns the write's error.
The formatted string s stands for fmt.Sprintf(format, args...). -/
def Client.Sendf (c : Client) (s : List Char) : Client × Option String :=
  match c.conn with
  | none => (c, none)
  | some tr =>
    let r := transportWrite tr (sframe s)
    ({ c with conn := some r.1 }, r.2)

/-- Nick (core.go lines 110-112): sends NICK followed by the nick. -/
def Client.Nick (c : Client) (nick : List Char) : Client × Option String :=
  Client.Sendf c (str "NICK " ++ nick)

/-- GetNick (core.go lines 115-117). -/
def Client.GetNick (c : Client) : List Char :=
  c.currentNick

/-- Whois (core.go lines 136-138). -/
def Client.Whois (c : Client) (nick : List Char) : Client × Option String :=
  Client.Sendf c (str "WHOIS " ++ nick)

/-- ReclaimNick (core.go lines 120-133): under the identity lock, sends a
WHOIS for the configured nick when the current nick differs from it; the
error returned by Whois is discarded. -/
def Client.ReclaimNick (c : Client) : Client :=
  if c.nick ≠ c.currentNick then (Client.Whois c c.nick).1 else c

/-- strings.Split(message, " ") from core.go line 66: Go's Split with a
single-character separator. -/
def splitWords : List Char → List (List Char)
  | [] => [[]]
  | c :: rest =>
    if c = ' ' then [] :: splitWords rest
    else
      match splitWords rest with
      | [] => [[c]]
      | w :: ws => (c :: w) :: ws

/-- The word-repacking loop of Privmsg (core.go lines 63-78): iterates
over the words with their index, flushing the accumulated message into
the msgs slice when the next word would reach the 510 limit or when the
last word is reached, then appending the word to the (possibly just
reset) accumulator.  Returns the msgs slice together with the final
accumulator, which the source never flushes. -/
def privChunkLoop (cmd : List Char) (total : Nat) :
    Nat → List (List Char) → List (List Char) → List Char →
    List (List Char) × List Char
  | _, [], msgs, msg => (msgs, msg)
  | i, w :: ws, msgs, msg =>
    let p :=
      if 510 ≤ cmd.length + msg.length + w.length + 1 ∨ i = total - 1 then
        (msgs ++ [msg], ([] : List Char))
      else (msgs, msg)
    let msg2 := if p.2 ≠ [] then p.2 ++ ' ' :: w else w
    privChunkLoop cmd total (i + 1) ws p.1 msg2

/-- The list of chunk payloads Privmsg actually sends for an oversized
message (core.go lines 63-78 followed by the send loop input). -/
def privmsgChunks (cmd message : List Char) : List (List Char) :=
  let words := splitWords message
  (privChunkLoop cmd words.length 0 words [] []).1

/-- The send loop of Privmsg (core.go lines 80-84): sends each chunk
prefixed by cmd; the first send error aborts the loop and is returned. -/
def privmsgSendLoop (c : Client) (cmd : List Char) :
    List (List Char) → Client × Option String
  | [] => (c, none)
  | m :: rest =>
    let r := Client.Sendf c (cmd ++ m)
    match r.2 with
    | some e => (r.1, some e)
    | none => privmsgSendLoop r.1 cmd rest

/-- Privmsg (core.go lines 40-87): a message that fits in one line with
its PRIVMSG command is sent directly; otherwise the message is split by
the word-repacking loop and the chunks are sent one by one. -/
def Client.Privmsg (c : Client) (target message : List Char) :
    Client × Option String :=
  let cmd := str "PRIVMSG " ++ target ++ str " :"
  if cmd.length + message.length ≤ 510 then
    Client.Sendf c (cmd ++ message)
  else
    privmsgSendLoop c cmd (privmsgChunks cmd message)

/-- reconnect (conn.go lines 62-92), with the environment abstracted as
the success value of each successive Connect call (connectOk i is the
outcome of the attempt of index i).  The first component collects the
seconds slept before each attempt (time.Sleep(rt) precedes every
attempt); the second is the value reconnect returns: none on the first
successful attempt, otherwise the giving-up error.  The fuel argument is
the number of remaining iterations of the 10-iteration for loop. -/
def reconnectIter (connectOk : Nat → Bool) :
    Nat → Nat → Nat → List Nat × Option String
  | _, _, 0 => ([], some "unable to reconnect, giving up")
  | i, rt, fuel + 1 =>
    if connectOk i then ([rt], none)
    else
      let r := reconnectIter connectOk (i + 1) (rt * 2) fuel
      (rt :: r.1, r.2)

/-- reconnect's entry point: retry time starts at 5 seconds, at most 10
attempts. -/
def reconnect (connectOk : Nat → Bool) : List Nat × Option String :=
  reconnectIter connectOk 0 5 10

/-- The parsed representation of one protocol line (the Message struct;
declared in a file of the repository outside the provided sources, its
fields are fixed by the data model of the spec and by the tests). -/
structure Message where
  Raw : String
  Name : String
  User : String
  Host : String
  Command : String
  Params : String
  ParamsArray : List String
deriving DecidableEq

/-- The outcome of one ReadLine call on the textproto reader. -/
inductive ReadErr where
  | ok : ReadErr
  | eof : ReadErr
  | other : String → ReadErr
deriving DecidableEq

/-- One iteration's input to the read loop: either the quit channel has
fired, or ReadLine returned a line together with its error value. -/
inductive LoopEvent where
  | quit : LoopEvent
  | read : String → ReadErr → LoopEvent
deriving DecidableEq

/-- The observable actions of one run of the read loop, in order: debug
logging of a read line, debug logging of a parse error, and a hub.Send
call with its event name and message. -/
inductive LoopAction where
  | logLine : String → LoopAction
  | logErr : String → LoopAction
  | publish : String → Message → LoopAction
deriving DecidableEq

/-- How a run of the read loop ends: the quit branch closes the
connection and returns nil; EOF makes loop return c.reconnect(); any
other read error is returned to the caller (and hence becomes the return
value of Connect, whose last statement is return c.loop()); pending means
the supplied event schedule ran out. -/
inductive LoopExit where
  | quitClose : LoopExit
  | reconnectInvoked : LoopExit
  | fatal : String → LoopExit
  | pending : LoopExit
deriving DecidableEq

/-- loop (conn.go lines 95-149), with the environment abstracted as the
schedule of events and the parser (declared outside the provided sources)
as a parameter p.  Each iteration consumes one event: on quit the loop
closes and returns; otherwise the read line is logged, then EOF leads to
return c.reconnect(), any other read error is returned, a parse failure
is logged and skipped, and a parsed message m is published under
m.Command and then under the wildcard name before the next event is
consumed. -/
def loopRun (p : String → Except String Message) :
    List LoopEvent → List LoopAction × LoopExit
  | [] => ([], .pending)
  | .quit :: _ => ([], .quitClose)
  | .read l r :: rest =>
    match r with
    | .eof => ([.logLine l], .reconnectInvoked)
    | .other e => ([.logLine l], .fatal e)
    | .ok =>
      match p l with
      | .error e =>
        let next := loopRun p rest
        (.logLine l :: .logErr e :: next.1, next.2)
      | .ok m =>
        let next := loopRun p rest
        (.logLine l :: .publish m.Command m :: .publish "*" m :: next.1, next.2)

/-- How Connect (conn.go lines 13-59) returns, short of the read loop
itself (whose behaviour is loopRun): a configuration error, a dial
error, a USER/NICK send error, or entry into the read loop (Connect's
last statement, return c.loop()). -/
inductive ConnectOutcome where
  | configErr : String → ConnectOutcome
  | dialErr : String → ConnectOutcome
  | sendErr : String → ConnectOutcome
  | enteredLoop : ConnectOutcome
deriving DecidableEq

/-- The registration tail of Connect (conn.go lines 47-58): send the USER
command, then the NICK command via c.Nick(c.currentNick), any send error
being returned, then enter the read loop. -/
def connectRegister (c : Client) : Client × ConnectOutcome :=
  let u := Client.Sendf c (str "USER " ++ c.user ++ str " * * :" ++ c.realName)
  match u.2 with
  | some e => (u.1, .sendErr e)
  | none =>
    let n := Client.Nick u.1 u.1.currentNick
    match n.2 with
    | some e => (n.1, .sendErr e)
    | none => (n.1, .enteredLoop)

/-- The dial step of Connect (conn.go lines 41-45): when no transport is
open yet, a failed dial is returned and a successful one installs the
dialed transport; then the registration tail runs. -/
def connectDial (dial : Except String Transport) (c : Client) :
    Client × ConnectOutcome :=
  match c.conn, dial with
  | none, .error e => (c, .dialErr e)
  | none, .ok tr => connectRegister { c with conn := some tr }
  | some _, _ => connectRegister c

/-- Connect (conn.go lines 13-59), with net.Dial's outcome abstracted as
the dial parameter (consulted only when no transport is already open):
fail fast when neither a transport nor an address is configured or when
no nick is configured; otherwise seed currentNick from the configured
nick, default user and realName to the nick when unset (conn.go lines
26-38, written as one simultaneous update of the three fields, which the
sequential assignments of the source compute), dial if needed, and run
the registration tail. -/
def Client.Connect (dial : Except String Transport) (c : Client) :
    Client × ConnectOutcome :=
  if c.conn = none ∧ c.addr = [] then
    (c, .configErr "no conn or addr found, use WithConn or WithAddr")
  else if c.nick = [] then
    (c, .configErr "no nick set, use WithNick to set the nick")
  else
    connectDial dial
      { c with
          currentNick := c.nick,
          user := if c.user = [] then c.nick else c.user,
          realName := if c.realName = [] then c.nick else c.realName }

/-- Delays of a run of attempts with doubling retry time: rt, rt * 2,
rt * 4, and so on (used only to state facts about reconnect). -/
def geomList : Nat → Nat → List Nat
  | _, 0 => []
  | rt, n + 1 => rt :: geomList (rt * 2) n

/-- Helper for stating frame lengths: a short line is framed by appending
the terminator only. -/
theorem sframe_short (s : List Char) (h : s.length ≤ 508) : sframe s = s ++ eol := by
  unfold sframe
  rw [if_neg]
  simp [eol, List.length_append]
  omega

/-- Length of a framed line: 512 when the formatted string with its
terminator overflows 510 characters, the untruncated length otherwise. -/
theorem sframe_length (s : List Char) :
    (sframe s).length = if 510 < s.length + 2 then 512 else s.length + 2 := by
  unfold sframe
  simp only [eol]
  split
  · rename_i h
    simp only [List.length_append, List.length_cons, List.length_nil] at h
    rw [if_pos (by omega)]
    simp [List.length_take, List.length_append]
    omega
  · rename_i h
    simp only [List.length_append, List.length_cons, List.length_nil] at h
    rw [if_neg (by omega)]
    simp [List.length_append]

/-- C1 (counterexample): the claim says every line Sendf writes is at
most 510 characters including the CR-LF terminator.  For a formatted
string of 509 characters, the framed line written to the transport is
512 characters long: the code truncates the string (with terminator) to
510 characters and then appends the 2-character terminator on top. -/
theorem c1_counterexample :
    (Client.Sendf ⟨some ⟨[], []⟩, [], [], [], [], []⟩ (List.replicate 509 'a')).1.conn
      = some ⟨[sframe (List.replicate 509 'a')], []⟩
    ∧ (sframe (List.replicate 509 'a')).length = 512
    ∧ ¬ (sframe (List.replicate 509 'a')).length ≤ 510 := by
  have h : (sframe (List.replicate 509 'a')).length = 512 := by
    rw [sframe_length, List.length_replicate]
    norm_num
  exact ⟨rfl, h, by omega⟩

/-- C1 (amended): Sendf writes exactly one line per call, and that line,
terminator included, is at most 512 characters: a formatted string that
fits in 510 characters with its terminator is written as is, and a longer
one is truncated to its first 510 characters with the 2-character
terminator re-appended, giving exactly 512. -/
theorem c1_amended (c : Client) (tr : Transport) (s : List Char)
    (hc : c.conn = some tr) :
    (Client.Sendf c s).1.conn = some ⟨tr.written ++ [sframe s], tr.errs.tail⟩
    ∧ (sframe s).length ≤ 512
    ∧ (510 < (s ++ eol).length → (sframe s).length = 512) := by
  refine ⟨?_, ?_, ?_⟩
  · simp [Client.Sendf, hc, transportWrite]
  · rw [sframe_length]
    split <;> omega
  · intro h
    simp only [List.length_append, eol, List.length_cons, List.length_nil] at h
    rw [sframe_length, if_pos (by omega)]

/-- C8: Sendf with no open transport is a silent no-op: it returns no
error and the client (hence the set of written lines) is unchanged. -/
theorem c8_sendf_noop (c : Client) (s : List Char) (hc : c.conn = none) :
    Client.Sendf c s = (c, none) := by
  simp [Client.Sendf, hc]

/-- Witness for C1 (amended) at a concrete connected client. -/
theorem c1_amended_witness :
    (Client.Sendf ⟨some ⟨[], []⟩, [], [], [], [], []⟩ (str "PING x")).1.conn
      = some ⟨[sframe (str "PING x")], []⟩
    ∧ (sframe (str "PING x")).length ≤ 512
    ∧ (510 < (str "PING x" ++ eol).length → (sframe (str "PING x")).length = 512) :=
  c1_amended ⟨some ⟨[], []⟩, [], [], [], [], []⟩ ⟨[], []⟩ (str "PING x") rfl

/-- A list with no space splits into the single word that is the whole
list (Go strings.Split with a separator that does not occur). -/
theorem splitWords_no_space (l : List Char) (h : ∀ c ∈ l, c ≠ ' ') :
    splitWords l = [l] := by
  induction l with
  | nil => rfl
  | cons c rest ih =>
    have hc : c ≠ ' ' := h c (List.mem_cons_self c rest)
    have hr : splitWords rest = [rest] :=
      ih (fun x hx => h x (List.mem_cons_of_mem c hx))
    simp [splitWords, hc, hr]

/-- C2 (code bug, evaluation at the failing input): with an open
transport, target #a and a message that is one word of 511 repetitions
of a (so that the 12-character command makes the message oversized), the
word-repacking loop leaves the single word in its never-flushed
accumulator and the chunk list is one empty chunk; Privmsg therefore
writes exactly one 14-character line, the bare command with an empty
payload, and the 511-character word is sent in no line at all. -/
theorem c2_code_bug_eval :
    privmsgChunks (str "PRIVMSG #a :") (List.replicate 511 'a') = [[]]
    ∧ Client.Privmsg ⟨some ⟨[], []⟩, [], str "foo", str "foo", [], []⟩
        (str "#a") (List.replicate 511 'a')
      = (⟨some ⟨[str "PRIVMSG #a :" ++ eol], []⟩, [], str "foo", str "foo", [], []⟩,
         none)
    ∧ (str "PRIVMSG #a :" ++ eol).length = 14 := by
  have hnsp : ∀ c ∈ List.replicate 511 'a', c ≠ ' ' := by
    intro c hc
    rw [List.eq_of_mem_replicate hc]
    decide
  have hw : splitWords (List.replicate 511 'a') = [List.replicate 511 'a'] :=
    splitWords_no_space _ hnsp
  have hlen : (List.replicate 511 'a').length = 511 := List.length_replicate 511 'a'
  have hchunks :
      privmsgChunks (str "PRIVMSG #a :") (List.replicate 511 'a') = [[]] := by
    unfold privmsgChunks
    rw [hw]
    show (privChunkLoop (str "PRIVMSG #a :") 1 0
      [List.replicate 511 'a'] [] []).1 = [[]]
    rw [privChunkLoop, if_pos (Or.inr rfl)]
    rfl
  refine ⟨hchunks, ?_, by decide⟩
  show Client.Privmsg _ _ _ = _
  unfold Client.Privmsg
  rw [if_neg (by rw [show str "PRIVMSG " ++ str "#a" ++ str " :"
        = str "PRIVMSG #a :" from rfl, hlen]; decide)]
  rw [show str "PRIVMSG " ++ str "#a" ++ str " :" = str "PRIVMSG #a :" from rfl,
    hchunks]
  rw [privmsgSendLoop]
  decide

/-- C9: ReclaimNick, run with an open transport, leaves the client
entirely unchanged when the current nick equals the configured nick, and
otherwise sends exactly one WHOIS line for the configured nick, touching
no other field. -/
theorem c9_reclaim_nick (c : Client) (tr : Transport) (hc : c.conn = some tr) :
    (c.nick = c.currentNick → Client.ReclaimNick c = c)
    ∧ (c.nick ≠ c.currentNick →
        Client.ReclaimNick c =
          { c with conn := some ⟨tr.written ++ [sframe (str "WHOIS " ++ c.nick)],
                                 tr.errs.tail⟩ }) := by
  constructor
  · intro h
    simp [Client.ReclaimNick, h]
  · intro h
    simp [Client.ReclaimNick, Client.Whois, Client.Sendf, transportWrite, h, hc]

/-- Witness for C9: both branches at concrete clients. -/
theorem c9_reclaim_nick_witness :
    Client.ReclaimNick ⟨some ⟨[], []⟩, [], str "foo", str "foo", [], []⟩
      = ⟨some ⟨[], []⟩, [], str "foo", str "foo", [], []⟩
    ∧ Client.ReclaimNick ⟨some ⟨[], []⟩, [], str "foo", str "foo_", [], []⟩
      = ⟨some ⟨[sframe (str "WHOIS " ++ str "foo")], []⟩, [],
         str "foo", str "foo_", [], []⟩ :=
  ⟨(c9_reclaim_nick ⟨some ⟨[], []⟩, [], str "foo", str "foo", [], []⟩
      ⟨[], []⟩ rfl).1 rfl,
   (c9_reclaim_nick ⟨some ⟨[], []⟩, [], str "foo", str "foo_", [], []⟩
      ⟨[], []⟩ rfl).2 (by decide)⟩

/-- C10: the Nick helper, run with an open transport, writes exactly the
framed NICK line for its argument and leaves currentNick, and hence the
value of GetNick, unchanged (no other field changes either). -/
theorem c10_nick_frame (c : Client) (tr : Transport) (n : List Char)
    (hc : c.conn = some tr) :
    Client.GetNick (Client.Nick c n).1 = Client.GetNick c
    ∧ (Client.Nick c n).1.currentNick = c.currentNick
    ∧ (Client.Nick c n).1
        = { c with conn := some ⟨tr.written ++ [sframe (str "NICK " ++ n)],
                                  tr.errs.tail⟩ } := by
  refine ⟨?_, ?_, ?_⟩ <;>
    simp [Client.GetNick, Client.Nick, Client.Sendf, transportWrite, hc]

/-- Witness for C10 at a concrete connected client. -/
theorem c10_nick_frame_witness :
    Client.GetNick (Client.Nick ⟨some ⟨[], []⟩, [], str "foo", str "foo", [], []⟩
        (str "bar")).1
      = Client.GetNick ⟨some ⟨[], []⟩, [], str "foo", str "foo", [], []⟩
    ∧ (Client.Nick ⟨some ⟨[], []⟩, [], str "foo", str "foo", [], []⟩
        (str "bar")).1.currentNick = str "foo"
    ∧ (Client.Nick ⟨some ⟨[], []⟩, [], str "foo", str "foo", [], []⟩
        (str "bar")).1
      = ⟨some ⟨[sframe (str "NICK " ++ str "bar")], []⟩, [],
         str "foo", str "foo", [], []⟩ :=
  c10_nick_frame ⟨some ⟨[], []⟩, [], str "foo", str "foo", [], []⟩ ⟨[], []⟩
    (str "bar") rfl

/-- Witness for C8 at a concrete disconnected client. -/
theorem c8_sendf_noop_witness :
    Client.Sendf ⟨none, [], str "foo", str "foo", [], []⟩ (str "PING x")
      = (⟨none, [], str "foo", str "foo", [], []⟩, none) :=
  c8_sendf_noop ⟨none, [], str "foo", str "foo", [], []⟩ (str "PING x") rfl

/-- The reconnect loop makes at most one attempt (and records one sleep)
per unit of fuel. -/
theorem reconnectIter_length_le (o : Nat → Bool) (fuel : Nat) :
    ∀ i rt, (reconnectIter o i rt fuel).1.length ≤ fuel := by
  induction fuel with
  | zero => intro i rt; simp [reconnectIter]
  | succ fuel ih =>
    intro i rt
    by_cases h : o i = true
    · simp [reconnectIter, h]
    · simp only [reconnectIter, Bool.not_eq_true] at h ⊢
      rw [if_neg (by simp [h])]
      simp only [List.length_cons]
      have := ih (i + 1) (rt * 2)
      omega

/-- The sleeps recorded by the reconnect loop double from rt onwards,
whatever the attempt outcomes are. -/
theorem reconnectIter_delays (o : Nat → Bool) (fuel : Nat) :
    ∀ i rt, (reconnectIter o i rt fuel).1
      = geomList rt (reconnectIter o i rt fuel).1.length := by
  induction fuel with
  | zero => intro i rt; simp [reconnectIter, geomList]
  | succ fuel ih =>
    intro i rt
    by_cases h : o i = true
    · simp [reconnectIter, h, geomList]
    · simp only [reconnectIter, Bool.not_eq_true] at h ⊢
      rw [if_neg (by simp [h])]
      simp only [List.length_cons]
      show _ = geomList rt (_ + 1)
      rw [show ∀ n, geomList rt (n + 1) = rt :: geomList (rt * 2) n
        from fun n => rfl]
      rw [← ih (i + 1) (rt * 2)]

/-- Closed form of geomList. -/
theorem geomList_eq_map (n : Nat) :
    ∀ rt, geomList rt n = (List.range n).map fun j => rt * 2 ^ j := by
  induction n with
  | zero => intro rt; rfl
  | succ n ih =>
    intro rt
    rw [show geomList rt (n + 1) = rt :: geomList (rt * 2) n from rfl,
      ih (rt * 2), List.range_succ_eq_map, List.map_cons, List.map_map]
    have hf : ((fun j => rt * 2 ^ j) ∘ Nat.succ) = fun j => rt * 2 * 2 ^ j := by
      funext j
      simp only [Function.comp, pow_succ]
      ring
    rw [hf]
    norm_num

/-- When the first success among the remaining attempts comes after k
failures, the loop returns nil after exactly k + 1 attempts. -/
theorem reconnectIter_success (o : Nat → Bool) (fuel : Nat) :
    ∀ i rt k, k < fuel → (∀ j, j < k → o (i + j) = false) → o (i + k) = true →
      (reconnectIter o i rt fuel).2 = none
      ∧ (reconnectIter o i rt fuel).1.length = k + 1 := by
  induction fuel with
  | zero => intro i rt k hk; exact absurd hk (Nat.not_lt_zero k)
  | succ fuel ih =>
    intro i rt k hk hf hs
    cases k with
    | zero =>
      have h0 : o i = true := by simpa using hs
      simp [reconnectIter, h0]
    | succ k' =>
      have h0 : o i = false := by simpa using hf 0 (Nat.succ_pos k')
      have hrec := ih (i + 1) (rt * 2) k' (by omega)
        (fun j hj => by
          have e : i + 1 + j = i + (j + 1) := by omega
          rw [e]
          exact hf (j + 1) (by omega))
        (by
          have e : i + 1 + k' = i + (k' + 1) := by omega
          rw [e]
          exact hs)
      simp only [reconnectIter]
      rw [if_neg (by simp [h0])]
      simp only [List.length_cons]
      exact ⟨hrec.1, by rw [hrec.2]⟩

/-- When every one of the remaining attempts fails, the loop uses all its
attempts and returns the giving-up error. -/
theorem reconnectIter_allfail (o : Nat → Bool) (fuel : Nat) :
    ∀ i rt, (∀ j, j < fuel → o (i + j) = false) →
      (reconnectIter o i rt fuel).2 = some "unable to reconnect, giving up"
      ∧ (reconnectIter o i rt fuel).1.length = fuel := by
  induction fuel with
  | zero => intro i rt _; simp [reconnectIter]
  | succ fuel ih =>
    intro i rt hf
    have h0 : o i = false := by simpa using hf 0 (Nat.succ_pos fuel)
    have hrec := ih (i + 1) (rt * 2)
      (fun j hj => by
        have e : i + 1 + j = i + (j + 1) := by omega
        rw [e]
        exact hf (j + 1) (by omega))
    simp only [reconnectIter]
    rw [if_neg (by simp [h0])]
    simp only [List.length_cons]
    exact ⟨hrec.1, by rw [hrec.2]⟩

/-- C3 (counterexample): when every Connect attempt fails, the recorded
sleeps are 5, 10, 20, ... seconds with the 5-second sleep coming before
the first attempt, so the delay between attempt 1 and attempt 2 is the
second entry, 10 seconds, while the claimed formula 5 * 2 ^ (k - 1)
gives 5 seconds for k = 1. -/
theorem c3_counterexample :
    (reconnect (fun _ => false)).1
      = [5, 10, 20, 40, 80, 160, 320, 640, 1280, 2560]
    ∧ (reconnect (fun _ => false)).1[1]? = some 10
    ∧ ¬ (10 = 5 * 2 ^ (1 - 1)) := by decide

/-- C3 (amended): the reconnect procedure makes at most 10 attempts; the
sleep before attempt k (counting from 1) is 5 * 2 ^ (k - 1) seconds, so
the delay between attempt k and attempt k + 1 is 5 * 2 ^ k seconds; it
returns nil as soon as an attempt succeeds, after its k failures plus
one success; and after 10 consecutive failures it returns the error
"unable to reconnect, giving up" having made exactly 10 attempts. -/
theorem c3_amended (o : Nat → Bool) :
    (reconnect o).1.length ≤ 10
    ∧ (reconnect o).1
        = (List.range (reconnect o).1.length).map (fun j => 5 * 2 ^ j)
    ∧ (∀ k, k < 10 → (∀ j, j < k → o j = false) → o k = true →
        (reconnect o).2 = none ∧ (reconnect o).1.length = k + 1)
    ∧ ((∀ j, j < 10 → o j = false) →
        (reconnect o).2 = some "unable to reconnect, giving up"
        ∧ (reconnect o).1.length = 10) := by
  refine ⟨reconnectIter_length_le o 10 0 5, ?_, ?_, ?_⟩
  · show (reconnectIter o 0 5 10).1 = _
    rw [reconnectIter_delays o 10 0 5, geomList_eq_map]
    rfl
  · intro k hk hf hs
    exact reconnectIter_success o 10 0 5 k hk (by simpa using hf) (by simpa using hs)
  · intro h
    exact reconnectIter_allfail o 10 0 5 (by simpa using h)

/-- Witness for C3 (amended): with attempts 0 and 1 failing and attempt 2
succeeding, reconnect returns nil after 3 attempts and the recorded
sleeps are 5, 10, 20 seconds. -/
theorem c3_amended_witness :
    (reconnect (fun k => k == 2)).2 = none
    ∧ (reconnect (fun k => k == 2)).1.length = 3
    ∧ (reconnect (fun k => k == 2)).1
        = (List.range 3).map (fun j => 5 * 2 ^ j) := by
  have h := c3_amended (fun k => k == 2)
  have hs := h.2.2.1 2 (by decide) (by decide) (by decide)
  refine ⟨hs.1, hs.2, ?_⟩
  have hd := h.2.1
  rw [hs.2] at hd
  exact hd

/-- C4: in the read loop, a read that returns end-of-stream makes the
loop return the result of the reconnect procedure; a read that returns
any other error terminates the loop with that error as its (and hence
Connect's) return value, whatever events were still scheduled; and a
line that reads cleanly but fails to parse is logged and skipped, the
loop continuing with the remaining events. -/
theorem c4_read_errors (p : String → Except String Message) (l e e' : String)
    (rest : List LoopEvent) (hp : p l = .error e) :
    loopRun p (.read l .eof :: rest) = ([.logLine l], .reconnectInvoked)
    ∧ loopRun p (.read l (.other e') :: rest) = ([.logLine l], .fatal e')
    ∧ loopRun p (.read l .ok :: rest)
        = (.logLine l :: .logErr e :: (loopRun p rest).1, (loopRun p rest).2) := by
  refine ⟨rfl, rfl, ?_⟩
  simp only [loopRun, hp]

/-- Witness for C4 with a parser that rejects every line. -/
theorem c4_read_errors_witness :
    loopRun (fun _ => Except.error "malformed message") [.read "foo:" .eof]
      = ([.logLine "foo:"], .reconnectInvoked)
    ∧ loopRun (fun _ => Except.error "malformed message")
        [.read "foo:" (.other "read failure")]
      = ([.logLine "foo:"], .fatal "read failure")
    ∧ loopRun (fun _ => Except.error "malformed message") [.read "foo:" .ok]
      = (.logLine "foo:" :: .logErr "malformed message"
          :: (loopRun (fun _ => Except.error "malformed message") []).1,
         (loopRun (fun _ => Except.error "malformed message") []).2) :=
  c4_read_errors (fun _ => Except.error "malformed message") "foo:"
    "malformed message" "read failure" [] rfl

/-- C5: a message that parses successfully is published exactly twice,
first under its Command name and then under the wildcard name, and both
publishes precede every action of the remaining iterations of the
loop. -/
theorem c5_publish_twice (p : String → Except String Message) (l : String)
    (m : Message) (rest : List LoopEvent) (hp : p l = .ok m) :
    loopRun p (.read l .ok :: rest)
      = (.logLine l :: .publish m.Command m :: .publish "*" m
          :: (loopRun p rest).1,
         (loopRun p rest).2) := by
  simp only [loopRun, hp]

/-- Witness for C5 with a parser producing a PING message. -/
theorem c5_publish_twice_witness :
    loopRun (fun l => Except.ok ⟨l, "", "", "", "PING", "", []⟩)
        [.read "PING :x" .ok]
      = (.logLine "PING :x"
          :: .publish "PING" ⟨"PING :x", "", "", "", "PING", "", []⟩
          :: .publish "*" ⟨"PING :x", "", "", "", "PING", "", []⟩
          :: (loopRun (fun l => Except.ok ⟨l, "", "", "", "PING", "", []⟩) []).1,
         (loopRun (fun l => Except.ok ⟨l, "", "", "", "PING", "", []⟩) []).2) :=
  c5_publish_twice (fun l => Except.ok ⟨l, "", "", "", "PING", "", []⟩)
    "PING :x" ⟨"PING :x", "", "", "", "PING", "", []⟩ [] rfl

/-- C6: Connect fails fast with its descriptive error, returning the
client unmodified (so nothing is written and nick, user and realName are
untouched), when neither a transport nor an address is configured, and
likewise when a transport or address is present but no nick is
configured. -/
theorem c6_connect_config_errors (dial : Except String Transport) (c : Client) :
    (c.conn = none → c.addr = [] →
      Client.Connect dial c
        = (c, .configErr "no conn or addr found, use WithConn or WithAddr"))
    ∧ (¬ (c.conn = none ∧ c.addr = []) → c.nick = [] →
      Client.Connect dial c
        = (c, .configErr "no nick set, use WithNick to set the nick")) := by
  constructor
  · intro h1 h2
    unfold Client.Connect
    rw [if_pos ⟨h1, h2⟩]
  · intro h1 h2
    unfold Client.Connect
    rw [if_neg h1, if_pos h2]

/-- Witness for C6: a client with no transport and no address, and a
client with an address but no nick. -/
theorem c6_connect_config_errors_witness :
    Client.Connect (.error "offline") ⟨none, [], [], [], [], []⟩
      = (⟨none, [], [], [], [], []⟩,
         .configErr "no conn or addr found, use WithConn or WithAddr")
    ∧ Client.Connect (.error "offline") ⟨none, str "example.com:6667", [], [], [], []⟩
      = (⟨none, str "example.com:6667", [], [], [], []⟩,
         .configErr "no nick set, use WithNick to set the nick") :=
  ⟨(c6_connect_config_errors (.error "offline")
      ⟨none, [], [], [], [], []⟩).1 rfl rfl,
   (c6_connect_config_errors (.error "offline")
      ⟨none, str "example.com:6667", [], [], [], []⟩).2 (by decide) rfl⟩

/-- C7: when a transport is open, a nick is configured and the transport
accepts every write, Connect seeds currentNick with the configured nick,
defaults user and realName to the nick when they are unset, writes
exactly the USER line followed by the NICK line for the current nick (in
that order, CR-LF terminated, untruncated as both fit the frame), and
then enters the read loop. -/
theorem c7_connect_registers (dial : Except String Transport) (c : Client)
    (tr : Transport) (hc : c.conn = some tr) (hn : c.nick ≠ []) (he : tr.errs = [])
    (hu : (str "USER " ++ (if c.user = [] then c.nick else c.user) ++ str " * * :"
            ++ (if c.realName = [] then c.nick else c.realName)).length ≤ 508)
    (hk : (str "NICK " ++ c.nick).length ≤ 508) :
    Client.Connect dial c
      = ({ c with
            currentNick := c.nick,
            user := if c.user = [] then c.nick else c.user,
            realName := if c.realName = [] then c.nick else c.realName,
            conn := some ⟨tr.written
              ++ [str "USER " ++ (if c.user = [] then c.nick else c.user)
                    ++ str " * * :"
                    ++ (if c.realName = [] then c.nick else c.realName) ++ eol,
                  str "NICK " ++ c.nick ++ eol], []⟩ },
         .enteredLoop) := by
  unfold Client.Connect
  rw [if_neg (by simp [hc]), if_neg hn]
  unfold connectDial
  simp only [hc]
  have hu' : (str "USER " ++ ((if c.user = [] then c.nick else c.user)
      ++ (str " * * :"
          ++ (if c.realName = [] then c.nick else c.realName)))).length ≤ 508 := by
    simp only [List.length_append] at hu ⊢
    omega
  simp [connectRegister, Client.Nick, Client.Sendf, transportWrite, hc, he,
    sframe_short _ hu', sframe_short _ hk]

/-- Witness for C7: a client with an open error-free transport, nick foo
and unset user and real name registers as USER foo * * :foo then NICK
foo. -/
theorem c7_connect_registers_witness :
    Client.Connect (.error "offline") ⟨some ⟨[], []⟩, [], str "foo", [], [], []⟩
      = (⟨some ⟨[str "USER foo * * :foo" ++ eol, str "NICK foo" ++ eol], []⟩,
          [], str "foo", str "foo", str "foo", str "foo"⟩,
         .enteredLoop) :=
  c7_connect_registers (.error "offline")
    ⟨some ⟨[], []⟩, [], str "foo", [], [], []⟩ ⟨[], []⟩ rfl (by decide) rfl
    (by decide) (by decide)

end IrcSpec
